import Mathlib

/-!
Access control engine of `pkg/services/accesscontrol/ossaccesscontrol`.

A shallow embedding of `accesscontrol.go` (the authorization engine `Evaluate`, the checker
compiler `GenerateChecker`, `verifyPermissions`, `Wildcards.Contains` and
`generatePossibleWildcards`) followed by theorems about it.

Modelling conventions.

* Go strings are Lean `String`s; `int64` organization ids are `Int` (no arithmetic is done on
  them).
* A Go `map[K]V` is an association list read by first match (`GoMap.lookup`); a write replaces
  the binding of the key or adds one (`GoMap.insert`).  A nil *inner* map reads like an empty
  one; the *outer* permissions map keeps the nil / non-nil distinction through `Option`.
* The `*user.SignedInUser` pointer is explicit state: every operation returns a `Run` holding
  the returned value, the principal as it is after the call and the calls made to the
  collaborators that live outside the file (permission store, evaluator, resolver registry),
  in program order.
* The collaborators are parameters: `Service`, `Resolvers` and the `Evaluator` interface.  They
  are taken to be total and to leave the principal alone.  Telemetry (timer, counter) and the
  `context.Context` argument carry no decision logic and are left out.
-/

namespace ossaccesscontrol

/-! ## Go maps -/

/-- A Go map as an association list; the first binding of a key is the one that counts. -/
abbrev GoMap (κ ν : Type) := List (κ × ν)

/-- The comma-ok read `v, ok := m[key]`: `some v` when the key is bound, `none` otherwise. -/
def GoMap.lookup {κ ν : Type} [DecidableEq κ] : GoMap κ ν → κ → Option ν
  | [], _ => none
  | (k, v) :: rest, key => if k = key then some v else GoMap.lookup rest key

/-- The write `m[key] = val`. -/
def GoMap.insert {κ ν : Type} [DecidableEq κ] : GoMap κ ν → κ → ν → GoMap κ ν
  | [], key, val => [(key, val)]
  | (k, v) :: rest, key, val =>
    if k = key then (key, val) :: rest else (k, v) :: GoMap.insert rest key val

/-- The builtin `make(map[K]V, hint)`.  The size hint only pre-sizes the table; the Go runtime
treats a negative hint as zero, so every hint yields the empty map. -/
def makeMap {κ ν : Type} (_hint : Int) : GoMap κ ν := []

/-! ## Errors -/

/-- Go `error` values as the engine meets them: a value created by `errors.New`, or an error
wrapping another one (`fmt.Errorf` with `%w`).  Every error value is an allocation of its own;
`ident` stands for its address, so two error values are the same error exactly when their
`ident` agree, whatever their messages.  Errors carrying an `Is` method of their own are not
modelled. -/
inductive GoError where
  | sentinel (ident : Nat) (msg : String)
  | wrap (ident : Nat) (msg : String) (inner : GoError)
deriving DecidableEq, Repr

/-- The identity (address) of an error value. -/
def GoError.ident : GoError → Nat
  | .sentinel ident _ => ident
  | .wrap ident _ _ => ident

/-- Go's `err == target` on error values: comparison of identity. -/
def GoError.same (err target : GoError) : Bool := decide (err.ident = target.ident)

/-- The standard library `errors.Is`: compares `err` with `target`, then unwraps `err` and
repeats until the chain ends. -/
def errorsIs (err target : GoError) : Bool :=
  match err with
  | .sentinel ident msg => GoError.same (.sentinel ident msg) target
  | .wrap ident msg inner => GoError.same (.wrap ident msg inner) target || errorsIs inner target

/-- The error itself followed by the errors it wraps, outermost first. -/
def GoError.chain : GoError → List GoError
  | .sentinel ident msg => [.sentinel ident msg]
  | .wrap ident msg inner => .wrap ident msg inner :: GoError.chain inner

/-- Modelled from the spec: the sentinel `accesscontrol.ErrResolverNotFound` (`ResolverNotFound`,
no resolver registered for an encountered scope prefix); its declaration is outside the file.
It is the one error value with identity `0`. -/
def ErrResolverNotFound : GoError := .sentinel 0 "no resolver found"

/-! ## Data model -/

/-- The part of `user.SignedInUser` the engine reads and writes. -/
structure SignedInUser where
  OrgID : Int
  Permissions : Option (GoMap Int (GoMap String (List String)))
deriving DecidableEq, Repr

/-- A flat permission as returned by the permission store. -/
structure Permission where
  Action : String
  Scope : String
deriving DecidableEq, Repr

/-- The options record `accesscontrol.Options`. -/
structure Options where
  ReloadCache : Bool
deriving DecidableEq, Repr

/-- The type `accesscontrol.ScopeAttributeMutator`: rewrites one scope into replacement scopes
or fails. -/
abbrev ScopeAttributeMutator := String → Except GoError (List String)

/-- The permission store seen through `accesscontrol.Service`. -/
structure Service where
  GetUserPermissions : SignedInUser → Options → Except GoError (List Permission)

/-- The resolver registry `accesscontrol.Resolvers`, seen through the one method the engine
calls. -/
structure Resolvers where
  GetScopeAttributeMutator : Int → ScopeAttributeMutator

/-- The interface `accesscontrol.Evaluator`: the method table of the evaluator values of a
carrier `ε`.  An evaluator handed to the engine is a value of `ε` together with this table. -/
structure Evaluator (ε : Type) where
  Evaluate : ε → GoMap String (List String) → Bool
  MutateScopes : ε → ScopeAttributeMutator → Except GoError ε

/-- The struct `AccessControl` (configuration and logger left out). -/
structure AccessControl where
  resolvers : Resolvers
  service : Service

/-- Calls that leave the file, recorded in program order. -/
inductive Call where
  | GetUserPermissions (opts : Options)
  | Evaluate
  | GetScopeAttributeMutator (orgID : Int)
  | MutateScopes
  | EvaluateResolved
deriving DecidableEq, Repr

/-- The result of running an operation on a principal: the returned value, the principal after
the call, and the collaborator calls made. -/
structure Run (α : Type) where
  value : α
  user : SignedInUser
  calls : List Call

/-- Modelled from the spec: `accesscontrol.GroupScopesByAction`, which groups flat permissions by
action into the snapshot shape (action name to the sequence of its scopes, in input order); the
function is outside the file. -/
def GroupScopesByAction (permissions : List Permission) : GoMap String (List String) :=
  permissions.foldl
    (fun m p => GoMap.insert m p.Action (((GoMap.lookup m p.Action).getD []) ++ [p.Scope])) []

/-! ## `verifyPermissions` and the snapshot -/

/-- The function `verifyPermissions`: the permissions map is non-nil and has an entry for the
principal's organization. -/
def verifyPermissions (u : SignedInUser) : Bool :=
  match u.Permissions with
  | none => false
  | some perms =>
    match GoMap.lookup perms u.OrgID with
    | none => false
    | some _ => true

/-- The comma-ok read `user.Permissions[user.OrgID]`; a nil outer map has no entries. -/
def orgPermissions (u : SignedInUser) : Option (GoMap String (List String)) :=
  match u.Permissions with
  | none => none
  | some perms => GoMap.lookup perms u.OrgID

/-- The plain read `user.Permissions[user.OrgID]`, a nil (empty) map when absent. -/
def snapshot (u : SignedInUser) : GoMap String (List String) :=
  (orgPermissions u).getD []

/-! ## Wildcards -/

/-- The type `Wildcards`. -/
abbrev Wildcards := List String

/-- The method `Wildcards.Contains`: a linear scan with literal comparison. -/
def Wildcards.Contains : Wildcards → String → Bool
  | [], _ => false
  | wildcard :: rest, scope => if scope = wildcard then true else Wildcards.Contains rest scope

/-- Splitting a character sequence at every occurrence of `sep`; empty segments are kept. -/
def splitChars (sep : Char) : List Char → List (List Char)
  | [] => [[]]
  | c :: cs =>
    if c = sep then [] :: splitChars sep cs
    else
      match splitChars sep cs with
      | [] => [[c]]
      | seg :: segs => (c :: seg) :: segs

/-- The standard library `strings.Split` for a one-character separator. -/
def stringsSplit (s : String) (sep : Char) : List String :=
  (splitChars sep s.toList).map String.mk

/-- The function `generatePossibleWildcards`: starts from the universal wildcard and appends
`p + ":*"` for every part of every entry of `prefixes`. -/
def generatePossibleWildcards (prefixes : List String) : Wildcards :=
  prefixes.foldl
    (fun wildcards pfx =>
      (stringsSplit pfx ':').foldl (fun wildcards p => wildcards ++ [p ++ ":*"]) wildcards)
    ["*"]

/-! ## `GenerateChecker` -/

/-- The type `Checker`: a predicate over any number of candidate scopes. -/
abbrev Checker := List String → Bool

/-- The loop over the action's scopes in `GenerateChecker`: `none` when a scope is one of the
wildcards (the early return), otherwise the filled lookup table. -/
def scanScopes (wildcards : Wildcards) : List String → GoMap String Bool → Option (GoMap String Bool)
  | [], lookup => some lookup
  | s :: rest, lookup =>
    if Wildcards.Contains wildcards s then none
    else scanScopes wildcards rest (GoMap.insert lookup s true)

/-- The body of the closure returned last by `GenerateChecker`: true at the first candidate
whose table entry is true (`lookup[s]` reads false for an unbound key). -/
def lookupAny (lookup : GoMap String Bool) : List String → Bool
  | [] => false
  | s :: rest => if (GoMap.lookup lookup s).getD false then true else lookupAny lookup rest

/-- The size hint `len(scopes)-1` given to `make` for the lookup table. -/
def lookupSizeHint (scopes : List String) : Int := (scopes.length : Int) - 1

/-- The method `AccessControl.GenerateChecker`.  It never writes to the principal and calls no
collaborator.  The local map `checkers` is written for an absent action and never read. -/
def AccessControl.GenerateChecker (_a : AccessControl) (user : SignedInUser)
    (prefixes : List String) (action : String) : Run Checker :=
  if !verifyPermissions user then
    ⟨fun _ => false, user, []⟩
  else
    match orgPermissions user with
    | none => ⟨fun _ => false, user, []⟩
    | some permissions =>
      let scopes : List String := (GoMap.lookup permissions action).getD []
      let ok : Bool := (GoMap.lookup permissions action).isSome
      let _checkers : GoMap String Checker :=
        if ok then [] else GoMap.insert [] action (fun _ => false)
      let wildcards := generatePossibleWildcards prefixes
      let lookup : GoMap String Bool := makeMap (lookupSizeHint scopes)
      match scanScopes wildcards scopes lookup with
      | none => ⟨fun _ => true, user, []⟩
      | some lookup => ⟨fun candidates => lookupAny lookup candidates, user, []⟩

/-! ## `Evaluate` -/

/-- The method `AccessControl.Evaluate`.  The returned pair is Go's `(bool, error)` with `none`
for a nil error. -/
def AccessControl.Evaluate {ε : Type} (a : AccessControl) (E : Evaluator ε)
    (user : SignedInUser) (evaluator : ε) : Run (Bool × Option GoError) :=
  let rest (user : SignedInUser) (calls : List Call) : Run (Bool × Option GoError) :=
    if E.Evaluate evaluator (snapshot user) then
      ⟨(true, none), user, calls ++ [Call.Evaluate]⟩
    else
      let mutator := a.resolvers.GetScopeAttributeMutator user.OrgID
      match E.MutateScopes evaluator mutator with
      | .error err =>
        if errorsIs err ErrResolverNotFound then
          ⟨(false, none), user,
            calls ++ [Call.Evaluate, Call.GetScopeAttributeMutator user.OrgID, Call.MutateScopes]⟩
        else
          ⟨(false, some err), user,
            calls ++ [Call.Evaluate, Call.GetScopeAttributeMutator user.OrgID, Call.MutateScopes]⟩
      | .ok resolvedEvaluator =>
        ⟨(E.Evaluate resolvedEvaluator (snapshot user), none), user,
          calls ++ [Call.Evaluate, Call.GetScopeAttributeMutator user.OrgID, Call.MutateScopes,
            Call.EvaluateResolved]⟩
  if !verifyPermissions user then
    match a.service.GetUserPermissions user ⟨true⟩ with
    | .error err => ⟨(false, some err), user, [Call.GetUserPermissions ⟨true⟩]⟩
    | .ok permissions =>
      rest { user with Permissions := some [(user.OrgID, GroupScopesByAction permissions)] }
        [Call.GetUserPermissions ⟨true⟩]
  else
    rest user []

/-! ## Sample collaborators -/

/-- A sample evaluator: asks for one action on a list of target scopes and holds when a target
is literally among the scopes granted for the action. -/
structure ScopeEvaluator where
  Action : String
  Scopes : List String
deriving DecidableEq, Repr

/-- Rewrites every target scope through the mutator, stopping at the first failure. -/
def mutateAll (mutator : ScopeAttributeMutator) : List String → Except GoError (List String)
  | [] => .ok []
  | s :: rest =>
    match mutator s with
    | .error err => .error err
    | .ok replaced =>
      match mutateAll mutator rest with
      | .error err => .error err
      | .ok more => .ok (replaced ++ more)

/-- The method table of the sample evaluator. -/
def scopeEvaluators : Evaluator ScopeEvaluator where
  Evaluate e permissions :=
    e.Scopes.any fun target => ((GoMap.lookup permissions e.Action).getD []).contains target
  MutateScopes e mutator :=
    match mutateAll mutator e.Scopes with
    | .error err => .error err
    | .ok scopes => .ok { e with Scopes := scopes }

/-- A sample store holding one fixed list of permissions. -/
def fixedStore (permissions : List Permission) : Service :=
  ⟨fun _ _ => .ok permissions⟩

/-- A sample store whose every fetch fails with `err`. -/
def failingStore (err : GoError) : Service :=
  ⟨fun _ _ => .error err⟩

/-- A sample registry whose mutator fails with `err` on every scope. -/
def failingResolvers (err : GoError) : Resolvers :=
  ⟨fun _ _ => .error err⟩

/-- A sample registry whose mutator rewrites the scope `source` to `target` and keeps every other
scope. -/
def rewritingResolvers (source target : String) : Resolvers :=
  ⟨fun _ scope => if scope = source then .ok [target] else .ok [scope]⟩

/-- A principal of organization 1 whose snapshot grants `action` on `scopes`. -/
def grantedUser (action : String) (scopes : List String) : SignedInUser :=
  ⟨1, some [(1, [(action, scopes)])]⟩

/-- A principal of organization 1 with a nil permissions map. -/
def freshUser : SignedInUser := ⟨1, none⟩

/-! ## Notions used to state the properties -/

/-- The scope list of `action` in the principal's snapshot for its organization (`permissions[action]`,
empty when the action has no entry). -/
def actionScopes (u : SignedInUser) (action : String) : List String :=
  (GoMap.lookup (snapshot u) action).getD []

/-- The principal as it stands once any needed load has succeeded: itself when the snapshot is
present, carrying the freshly fetched snapshot when it was absent; `none` when the fetch
fails. -/
def loadedUser (a : AccessControl) (u : SignedInUser) : Option SignedInUser :=
  if verifyPermissions u then some u
  else
    match a.service.GetUserPermissions u ⟨true⟩ with
    | .error _ => none
    | .ok permissions =>
      some { u with Permissions := some [(u.OrgID, GroupScopesByAction permissions)] }

/-- The segments obtained by splitting every entry of `prefixes` on `:`, entry by entry and
segment by segment, empty segments included. -/
def allSegments : List String → List String
  | [] => []
  | pfx :: rest => stringsSplit pfx ':' ++ allSegments rest

/-- The wildcard list as the specification words it: the universal wildcard followed, in input
order, by `segment:*` for every segment of every entry of `prefixes`. -/
def wildcardsOfSegments (prefixes : List String) : List String :=
  "*" :: (allSegments prefixes).map (fun segment => segment ++ ":*")

/-- A sequence of `Evaluate` calls on one principal: each call runs on the principal as the
previous call left it.  Every call names the engine it goes through, so the store may answer
differently from one call to the next. -/
def evaluateAll {ε : Type} (E : Evaluator ε) :
    SignedInUser → List (AccessControl × ε) → List (Run (Bool × Option GoError))
  | _, [] => []
  | u, (a, e) :: rest => a.Evaluate E u e :: evaluateAll E (a.Evaluate E u e).user rest

/-- Whether a run of `Evaluate` fetched the snapshot successfully: the store was called and the
run went on to evaluate (a failed fetch returns right after the call to the store). -/
def fetchedSuccessfully (r : Run (Bool × Option GoError)) : Bool :=
  decide (Call.GetUserPermissions ⟨true⟩ ∈ r.calls) && decide (Call.Evaluate ∈ r.calls)

/-! ## Lemmas on maps, wildcards and the checker loops -/

theorem GoMap.lookup_insert {κ ν : Type} [DecidableEq κ] (m : GoMap κ ν) (k k' : κ) (v : ν) :
    GoMap.lookup (GoMap.insert m k v) k' = if k = k' then some v else GoMap.lookup m k' := by
  induction m with
  | nil => simp [GoMap.insert, GoMap.lookup]
  | cons hd tl ih =>
    obtain ⟨k0, v0⟩ := hd
    by_cases h0 : k0 = k
    · subst h0
      by_cases h1 : k0 = k' <;> simp [GoMap.insert, GoMap.lookup, h1]
    · by_cases h1 : k0 = k'
      · subst h1
        have h2 : ¬ k = k0 := fun h => h0 h.symm
        simp [GoMap.insert, GoMap.lookup, h0, h2]
      · simp [GoMap.insert, GoMap.lookup, h0, h1, ih]

theorem Wildcards.contains_iff (wildcards : Wildcards) (scope : String) :
    Wildcards.Contains wildcards scope = true ↔ scope ∈ wildcards := by
  induction wildcards with
  | nil => simp [Wildcards.Contains]
  | cons w rest ih =>
    by_cases h : scope = w <;> simp [Wildcards.Contains, h, ih]

theorem scanScopes_eq_none_iff (wildcards : Wildcards) (scopes : List String)
    (lookup : GoMap String Bool) :
    scanScopes wildcards scopes lookup = none ↔ ∃ s ∈ scopes, s ∈ wildcards := by
  induction scopes generalizing lookup with
  | nil => simp [scanScopes]
  | cons s rest ih =>
    by_cases h : Wildcards.Contains wildcards s = true
    · have hm : s ∈ wildcards := (Wildcards.contains_iff wildcards s).1 h
      simp [scanScopes, h, hm]
    · have hm : s ∉ wildcards := fun hs => h ((Wildcards.contains_iff wildcards s).2 hs)
      simp [scanScopes, h, hm, ih]

theorem scanScopes_lookup (wildcards : Wildcards) (scopes : List String)
    (lookup table : GoMap String Bool) (h : scanScopes wildcards scopes lookup = some table)
    (c : String) :
    (GoMap.lookup table c).getD false = true ↔
      (GoMap.lookup lookup c).getD false = true ∨ c ∈ scopes := by
  induction scopes generalizing lookup with
  | nil =>
    simp [scanScopes] at h
    subst h
    simp
  | cons s rest ih =>
    by_cases hw : Wildcards.Contains wildcards s = true
    · simp [scanScopes, hw] at h
    · simp [scanScopes, hw] at h
      rw [ih _ h, GoMap.lookup_insert]
      by_cases hs : s = c
      · subst hs
        simp
      · have hs' : ¬ c = s := fun e => hs e.symm
        simp [hs, hs']

theorem lookupAny_iff (lookup : GoMap String Bool) (candidates : List String) :
    lookupAny lookup candidates = true ↔
      ∃ c ∈ candidates, (GoMap.lookup lookup c).getD false = true := by
  induction candidates with
  | nil => simp [lookupAny]
  | cons c rest ih =>
    by_cases h : (GoMap.lookup lookup c).getD false = true
    · simp [lookupAny, h]
    · simp [lookupAny, h, ih]

theorem orgPermissions_of_verify (u : SignedInUser) (h : verifyPermissions u = true) :
    ∃ permissions, orgPermissions u = some permissions := by
  unfold verifyPermissions at h
  unfold orgPermissions
  cases hp : u.Permissions with
  | none => simp [hp] at h
  | some perms =>
    cases hl : GoMap.lookup perms u.OrgID with
    | none => simp [hp, hl] at h
    | some inner => exact ⟨inner, by simp [hl]⟩

theorem verify_of_orgPermissions (u : SignedInUser) (permissions : GoMap String (List String))
    (h : orgPermissions u = some permissions) : verifyPermissions u = true := by
  unfold orgPermissions at h
  unfold verifyPermissions
  cases hp : u.Permissions with
  | none => simp [hp] at h
  | some perms =>
    simp only [hp] at h
    simp [h]

/-- The checker of a principal with a present snapshot, in terms of the scan of the action's
scope list. -/
theorem GenerateChecker_present (a : AccessControl) (u : SignedInUser) (prefixes : List String)
    (action : String) (h : verifyPermissions u = true) :
    (a.GenerateChecker u prefixes action).value =
      match scanScopes (generatePossibleWildcards prefixes) (actionScopes u action) [] with
      | none => fun _ => true
      | some table => fun candidates => lookupAny table candidates := by
  obtain ⟨permissions, hp⟩ := orgPermissions_of_verify u h
  simp only [AccessControl.GenerateChecker, h, hp, actionScopes, snapshot, makeMap]
  simp only [Bool.not_true, Bool.false_eq_true, if_false]
  split <;> split <;> simp_all

/-! ## Theorems on `GenerateChecker` -/

/-- C1: for a principal whose snapshot is present, when no scope of the action's scope list is
one of the generated wildcards, the checker holds on a candidate list exactly when some
candidate is literally a member of the action's scope list. -/
theorem checker_literal_membership (a : AccessControl) (u : SignedInUser)
    (prefixes : List String) (action : String) (candidates : List String)
    (hpresent : verifyPermissions u = true)
    (hnowild : ∀ s ∈ actionScopes u action, s ∉ generatePossibleWildcards prefixes) :
    (a.GenerateChecker u prefixes action).value candidates = true ↔
      ∃ c ∈ candidates, c ∈ actionScopes u action := by
  rw [GenerateChecker_present a u prefixes action hpresent]
  cases hscan : scanScopes (generatePossibleWildcards prefixes) (actionScopes u action) [] with
  | none =>
    obtain ⟨s, hs, hw⟩ := (scanScopes_eq_none_iff _ _ _).1 hscan
    exact absurd hw (hnowild s hs)
  | some table =>
    simp only [lookupAny_iff]
    constructor
    · rintro ⟨c, hc, hl⟩
      refine ⟨c, hc, ?_⟩
      have := (scanScopes_lookup _ _ _ _ hscan c).1 hl
      simpa [GoMap.lookup] using this
    · rintro ⟨c, hc, hm⟩
      exact ⟨c, hc, (scanScopes_lookup _ _ _ _ hscan c).2 (Or.inr hm)⟩

theorem checker_literal_membership_witness :
    verifyPermissions (grantedUser "dashboards:read" ["dashboards:uid:a", "dashboards:uid:b"])
        = true ∧
      (∀ s ∈ actionScopes (grantedUser "dashboards:read" ["dashboards:uid:a", "dashboards:uid:b"])
          "dashboards:read", s ∉ generatePossibleWildcards ["dashboards"]) ∧
      ((AccessControl.GenerateChecker ⟨failingResolvers ErrResolverNotFound, fixedStore []⟩
          (grantedUser "dashboards:read" ["dashboards:uid:a", "dashboards:uid:b"])
          ["dashboards"] "dashboards:read").value ["dashboards:uid:c", "dashboards:uid:b"] = true ↔
        ∃ c ∈ ["dashboards:uid:c", "dashboards:uid:b"],
          c ∈ actionScopes (grantedUser "dashboards:read" ["dashboards:uid:a", "dashboards:uid:b"])
            "dashboards:read") :=
  ⟨by decide, by decide,
    checker_literal_membership _ _ _ _ _ (by decide) (by decide)⟩

/-- C2: for a principal whose snapshot is present, when the action's scope list contains one of
the generated wildcards, the checker holds on every candidate list. -/
theorem checker_wildcard_always_true (a : AccessControl) (u : SignedInUser)
    (prefixes : List String) (action : String)
    (hpresent : verifyPermissions u = true)
    (hwild : ∃ s ∈ actionScopes u action, s ∈ generatePossibleWildcards prefixes)
    (candidates : List String) :
    (a.GenerateChecker u prefixes action).value candidates = true := by
  rw [GenerateChecker_present a u prefixes action hpresent,
    (scanScopes_eq_none_iff _ _ _).2 hwild]

theorem checker_wildcard_always_true_witness :
    verifyPermissions (grantedUser "dashboards:read" ["dashboards:uid:a", "dashboards:*"]) = true ∧
      (∃ s ∈ actionScopes (grantedUser "dashboards:read" ["dashboards:uid:a", "dashboards:*"])
          "dashboards:read", s ∈ generatePossibleWildcards ["dashboards"]) ∧
      (AccessControl.GenerateChecker ⟨failingResolvers ErrResolverNotFound, fixedStore []⟩
          (grantedUser "dashboards:read" ["dashboards:uid:a", "dashboards:*"])
          ["dashboards"] "dashboards:read").value ["dashboards:uid:zzz"] = true :=
  ⟨by decide, by decide,
    checker_wildcard_always_true _ _ _ _ (by decide) (by decide) _⟩

/-- C3: for a principal whose permissions map is nil or has no entry for its organization, the
checker is false on every candidate list, no collaborator (hence no permission store) is
called, and the principal is left as it was. -/
theorem checker_absent_snapshot_denies (a : AccessControl) (u : SignedInUser)
    (prefixes : List String) (action : String)
    (habsent : u.Permissions = none ∨
      ∃ perms, u.Permissions = some perms ∧ GoMap.lookup perms u.OrgID = none) :
    (∀ candidates, (a.GenerateChecker u prefixes action).value candidates = false) ∧
      (a.GenerateChecker u prefixes action).calls = [] ∧
      (a.GenerateChecker u prefixes action).user = u := by
  have hv : verifyPermissions u = false := by
    unfold verifyPermissions
    rcases habsent with h | ⟨perms, h, hl⟩
    · simp [h]
    · simp [h, hl]
  simp [AccessControl.GenerateChecker, hv]

theorem checker_absent_snapshot_denies_witness :
    ((⟨2, some [(1, [("dashboards:read", ["*"])])]⟩ : SignedInUser).Permissions = none ∨
        ∃ perms, (⟨2, some [(1, [("dashboards:read", ["*"])])]⟩ : SignedInUser).Permissions
            = some perms ∧
          GoMap.lookup perms (⟨2, some [(1, [("dashboards:read", ["*"])])]⟩ : SignedInUser).OrgID
            = none) ∧
      ((∀ candidates,
          (AccessControl.GenerateChecker ⟨failingResolvers ErrResolverNotFound, fixedStore []⟩
            ⟨2, some [(1, [("dashboards:read", ["*"])])]⟩ ["dashboards"]
            "dashboards:read").value candidates = false) ∧
        (AccessControl.GenerateChecker ⟨failingResolvers ErrResolverNotFound, fixedStore []⟩
            ⟨2, some [(1, [("dashboards:read", ["*"])])]⟩ ["dashboards"]
            "dashboards:read").calls = [] ∧
        (AccessControl.GenerateChecker ⟨failingResolvers ErrResolverNotFound, fixedStore []⟩
            ⟨2, some [(1, [("dashboards:read", ["*"])])]⟩ ["dashboards"]
            "dashboards:read").user = ⟨2, some [(1, [("dashboards:read", ["*"])])]⟩) :=
  ⟨Or.inr ⟨_, rfl, by decide⟩,
    checker_absent_snapshot_denies _ _ _ _ (Or.inr ⟨_, rfl, by decide⟩)⟩

/-- C4: for a principal whose snapshot is present but has no entry for the action, the size hint
of the lookup table is `-1`, the table is nevertheless created (empty), and the checker is
false on every candidate list, the candidates `*` and `segment:*` included. -/
theorem checker_absent_action_denies (a : AccessControl) (u : SignedInUser)
    (prefixes : List String) (action : String) (permissions : GoMap String (List String))
    (hsnap : orgPermissions u = some permissions)
    (hno : GoMap.lookup permissions action = none) :
    lookupSizeHint (actionScopes u action) = -1 ∧
      (makeMap (lookupSizeHint (actionScopes u action)) : GoMap String Bool) = [] ∧
      (∀ candidates, (a.GenerateChecker u prefixes action).value candidates = false) ∧
      (∀ segment : String,
        (a.GenerateChecker u prefixes action).value ["*", segment ++ ":*"] = false) := by
  have hscopes : actionScopes u action = [] := by
    simp [actionScopes, snapshot, hsnap, hno]
  have hv : verifyPermissions u = true := verify_of_orgPermissions u permissions hsnap
  have hall : ∀ candidates, (a.GenerateChecker u prefixes action).value candidates = false := by
    intro candidates
    rw [GenerateChecker_present a u prefixes action hv, hscopes]
    simp only [scanScopes]
    induction candidates with
    | nil => rfl
    | cons c rest ih => simpa [lookupAny, GoMap.lookup] using ih
  refine ⟨?_, rfl, hall, fun segment => hall _⟩
  simp [hscopes, lookupSizeHint]

theorem checker_absent_action_denies_witness :
    orgPermissions (grantedUser "folders:read" ["*"]) = some [("folders:read", ["*"])] ∧
      GoMap.lookup [("folders:read", ["*"])] "dashboards:read" = none ∧
      (lookupSizeHint (actionScopes (grantedUser "folders:read" ["*"]) "dashboards:read") = -1 ∧
        (makeMap (lookupSizeHint (actionScopes (grantedUser "folders:read" ["*"])
          "dashboards:read")) : GoMap String Bool) = [] ∧
        (∀ candidates,
          (AccessControl.GenerateChecker ⟨failingResolvers ErrResolverNotFound, fixedStore []⟩
            (grantedUser "folders:read" ["*"]) ["dashboards"] "dashboards:read").value candidates
              = false) ∧
        (∀ segment : String,
          (AccessControl.GenerateChecker ⟨failingResolvers ErrResolverNotFound, fixedStore []⟩
            (grantedUser "folders:read" ["*"]) ["dashboards"] "dashboards:read").value
              ["*", segment ++ ":*"] = false)) :=
  ⟨by decide, by decide,
    checker_absent_action_denies _ _ _ _ [("folders:read", ["*"])] (by decide) (by decide)⟩

/-- The scan of `errors.Is` fails exactly when no error of the chain is the target. -/
theorem errorsIs_eq_false_iff (err target : GoError) :
    errorsIs err target = false ↔ ∀ inner ∈ err.chain, inner.ident ≠ target.ident := by
  induction err with
  | sentinel ident msg => simp [errorsIs, GoError.same, GoError.chain]
  | wrap ident msg inner ih => simp [errorsIs, GoError.same, GoError.chain, ih]

/-- The two ways a load can succeed: the snapshot was present, or it was absent and fetched. -/
theorem loadedUser_cases (a : AccessControl) (u u' : SignedInUser)
    (hload : loadedUser a u = some u') :
    (verifyPermissions u = true ∧ u' = u) ∨
      (verifyPermissions u = false ∧ ∃ permissions,
        a.service.GetUserPermissions u ⟨true⟩ = .ok permissions ∧
        u' = { u with Permissions := some [(u.OrgID, GroupScopesByAction permissions)] }) := by
  unfold loadedUser at hload
  by_cases hv : verifyPermissions u = true
  · simp only [hv, if_true, Option.some.injEq] at hload
    exact Or.inl ⟨hv, hload.symm⟩
  · simp only [hv] at hload
    cases hf : a.service.GetUserPermissions u ⟨true⟩ with
    | error err => simp [hf] at hload
    | ok perms =>
      simp only [hf, Bool.false_eq_true, if_false, Option.some.injEq] at hload
      exact Or.inr ⟨by simpa using hv, perms, rfl, hload.symm⟩

/-! ## Theorems on `Evaluate` -/

/-- C5: once any needed load has succeeded, if the unmodified evaluator holds on the principal's
snapshot then `Evaluate` returns `(true, nil)` without asking for a scope mutator and without
calling `MutateScopes`: the whole run is the same for every resolver registry and every
implementation of `MutateScopes`. -/
theorem evaluate_fast_path {ε : Type} (a : AccessControl) (E : Evaluator ε) (u u' : SignedInUser)
    (e : ε) (hload : loadedUser a u = some u')
    (heval : E.Evaluate e (snapshot u') = true) :
    (a.Evaluate E u e).value = (true, none) ∧
      (a.Evaluate E u e).user = u' ∧
      Call.MutateScopes ∉ (a.Evaluate E u e).calls ∧
      (∀ org, Call.GetScopeAttributeMutator org ∉ (a.Evaluate E u e).calls) ∧
      (∀ (r : Resolvers) (mutate : ε → ScopeAttributeMutator → Except GoError ε),
        AccessControl.Evaluate ⟨r, a.service⟩ ⟨E.Evaluate, mutate⟩ u e = a.Evaluate E u e) := by
  unfold loadedUser at hload
  unfold AccessControl.Evaluate
  by_cases hv : verifyPermissions u = true
  · simp only [hv, if_true, Option.some.injEq] at hload
    subst hload
    simp [hv, heval]
  · simp only [hv] at hload
    cases hf : a.service.GetUserPermissions u ⟨true⟩ with
    | error err => simp [hf] at hload
    | ok perms =>
      simp only [hf, Bool.false_eq_true, if_false, Option.some.injEq] at hload
      subst hload
      simp [hv, hf, heval]

theorem evaluate_fast_path_witness :
    loadedUser ⟨failingResolvers (.sentinel 1 "resolver crashed"),
        fixedStore [⟨"dashboards:read", "dashboards:*"⟩]⟩ freshUser
        = some (grantedUser "dashboards:read" ["dashboards:*"]) ∧
      scopeEvaluators.Evaluate ⟨"dashboards:read", ["dashboards:*"]⟩
        (snapshot (grantedUser "dashboards:read" ["dashboards:*"])) = true ∧
      ((AccessControl.Evaluate ⟨failingResolvers (.sentinel 1 "resolver crashed"),
          fixedStore [⟨"dashboards:read", "dashboards:*"⟩]⟩ scopeEvaluators freshUser
          ⟨"dashboards:read", ["dashboards:*"]⟩).value = (true, none) ∧
        (AccessControl.Evaluate ⟨failingResolvers (.sentinel 1 "resolver crashed"),
          fixedStore [⟨"dashboards:read", "dashboards:*"⟩]⟩ scopeEvaluators freshUser
          ⟨"dashboards:read", ["dashboards:*"]⟩).user
            = grantedUser "dashboards:read" ["dashboards:*"] ∧
        Call.MutateScopes ∉ (AccessControl.Evaluate
          ⟨failingResolvers (.sentinel 1 "resolver crashed"),
            fixedStore [⟨"dashboards:read", "dashboards:*"⟩]⟩ scopeEvaluators freshUser
          ⟨"dashboards:read", ["dashboards:*"]⟩).calls ∧
        (∀ org, Call.GetScopeAttributeMutator org ∉ (AccessControl.Evaluate
          ⟨failingResolvers (.sentinel 1 "resolver crashed"),
            fixedStore [⟨"dashboards:read", "dashboards:*"⟩]⟩ scopeEvaluators freshUser
          ⟨"dashboards:read", ["dashboards:*"]⟩).calls) ∧
        (∀ (r : Resolvers)
            (mutate : ScopeEvaluator → ScopeAttributeMutator → Except GoError ScopeEvaluator),
          AccessControl.Evaluate ⟨r, fixedStore [⟨"dashboards:read", "dashboards:*"⟩]⟩
              ⟨scopeEvaluators.Evaluate, mutate⟩ freshUser ⟨"dashboards:read", ["dashboards:*"]⟩
            = AccessControl.Evaluate ⟨failingResolvers (.sentinel 1 "resolver crashed"),
                fixedStore [⟨"dashboards:read", "dashboards:*"⟩]⟩ scopeEvaluators freshUser
                ⟨"dashboards:read", ["dashboards:*"]⟩)) :=
  ⟨by decide, by decide,
    evaluate_fast_path ⟨failingResolvers (.sentinel 1 "resolver crashed"),
      fixedStore [⟨"dashboards:read", "dashboards:*"⟩]⟩ scopeEvaluators freshUser
      (grantedUser "dashboards:read" ["dashboards:*"]) ⟨"dashboards:read", ["dashboards:*"]⟩
      (by decide) (by decide)⟩

/-- C6: when the unresolved evaluation is false and scope mutation fails with an error that is
or wraps `ErrResolverNotFound`, `Evaluate` returns `(false, nil)`. -/
theorem evaluate_resolver_not_found {ε : Type} (a : AccessControl) (E : Evaluator ε)
    (u u' : SignedInUser) (e : ε) (err : GoError)
    (hload : loadedUser a u = some u')
    (heval : E.Evaluate e (snapshot u') = false)
    (hmut : E.MutateScopes e (a.resolvers.GetScopeAttributeMutator u'.OrgID) = .error err)
    (his : errorsIs err ErrResolverNotFound = true) :
    (a.Evaluate E u e).value = (false, none) := by
  rcases loadedUser_cases a u u' hload with ⟨hv, rfl⟩ | ⟨hv, perms, hf, rfl⟩
  · simp [AccessControl.Evaluate, hv, heval, hmut, his]
  · simp only [] at hmut
    simp [AccessControl.Evaluate, hv, hf, heval, hmut, his]

theorem evaluate_resolver_not_found_witness :
    loadedUser ⟨failingResolvers (.wrap 3 "dashboards" ErrResolverNotFound), fixedStore []⟩
        (grantedUser "dashboards:read" ["dashboards:uid:a"])
        = some (grantedUser "dashboards:read" ["dashboards:uid:a"]) ∧
      scopeEvaluators.Evaluate ⟨"dashboards:read", ["dashboards:uid:b"]⟩
        (snapshot (grantedUser "dashboards:read" ["dashboards:uid:a"])) = false ∧
      scopeEvaluators.MutateScopes ⟨"dashboards:read", ["dashboards:uid:b"]⟩
        ((failingResolvers (.wrap 3 "dashboards" ErrResolverNotFound)).GetScopeAttributeMutator
          (grantedUser "dashboards:read" ["dashboards:uid:a"]).OrgID)
        = .error (.wrap 3 "dashboards" ErrResolverNotFound) ∧
      errorsIs (.wrap 3 "dashboards" ErrResolverNotFound) ErrResolverNotFound = true ∧
      (AccessControl.Evaluate
        ⟨failingResolvers (.wrap 3 "dashboards" ErrResolverNotFound), fixedStore []⟩ scopeEvaluators
        (grantedUser "dashboards:read" ["dashboards:uid:a"])
        ⟨"dashboards:read", ["dashboards:uid:b"]⟩).value = (false, none) :=
  ⟨by decide, by decide, rfl, by decide,
    evaluate_resolver_not_found
      ⟨failingResolvers (.wrap 3 "dashboards" ErrResolverNotFound), fixedStore []⟩ scopeEvaluators
      (grantedUser "dashboards:read" ["dashboards:uid:a"])
      (grantedUser "dashboards:read" ["dashboards:uid:a"])
      ⟨"dashboards:read", ["dashboards:uid:b"]⟩ (.wrap 3 "dashboards" ErrResolverNotFound)
      (by decide) (by decide) rfl (by decide)⟩

/-- C7: when the snapshot is absent and the permission-store fetch fails with `err`, `Evaluate`
returns `(false, err)` with the same `err`, the only call made is the fetch (the evaluator is
neither evaluated nor mutated), and the principal is unchanged, its snapshot still absent. -/
theorem evaluate_store_error {ε : Type} (a : AccessControl) (E : Evaluator ε) (u : SignedInUser)
    (e : ε) (err : GoError)
    (habsent : verifyPermissions u = false)
    (hfetch : a.service.GetUserPermissions u ⟨true⟩ = .error err) :
    (a.Evaluate E u e).value = (false, some err) ∧
      (a.Evaluate E u e).user = u ∧
      verifyPermissions (a.Evaluate E u e).user = false ∧
      (a.Evaluate E u e).calls = [Call.GetUserPermissions ⟨true⟩] ∧
      Call.Evaluate ∉ (a.Evaluate E u e).calls ∧
      Call.MutateScopes ∉ (a.Evaluate E u e).calls ∧
      Call.EvaluateResolved ∉ (a.Evaluate E u e).calls := by
  simp [AccessControl.Evaluate, habsent, hfetch]

theorem evaluate_store_error_witness :
    verifyPermissions freshUser = false ∧
      (failingStore (.sentinel 2 "database is down")).GetUserPermissions freshUser ⟨true⟩
        = .error (.sentinel 2 "database is down") ∧
      ((AccessControl.Evaluate ⟨rewritingResolvers "dashboards:uid:b" "dashboards:uid:a",
          failingStore (.sentinel 2 "database is down")⟩ scopeEvaluators freshUser
          ⟨"dashboards:read", ["dashboards:uid:b"]⟩).value
            = (false, some (.sentinel 2 "database is down")) ∧
        (AccessControl.Evaluate ⟨rewritingResolvers "dashboards:uid:b" "dashboards:uid:a",
          failingStore (.sentinel 2 "database is down")⟩ scopeEvaluators freshUser
          ⟨"dashboards:read", ["dashboards:uid:b"]⟩).user = freshUser ∧
        verifyPermissions (AccessControl.Evaluate
          ⟨rewritingResolvers "dashboards:uid:b" "dashboards:uid:a",
            failingStore (.sentinel 2 "database is down")⟩ scopeEvaluators freshUser
          ⟨"dashboards:read", ["dashboards:uid:b"]⟩).user = false ∧
        (AccessControl.Evaluate ⟨rewritingResolvers "dashboards:uid:b" "dashboards:uid:a",
          failingStore (.sentinel 2 "database is down")⟩ scopeEvaluators freshUser
          ⟨"dashboards:read", ["dashboards:uid:b"]⟩).calls = [Call.GetUserPermissions ⟨true⟩] ∧
        Call.Evaluate ∉ (AccessControl.Evaluate
          ⟨rewritingResolvers "dashboards:uid:b" "dashboards:uid:a",
            failingStore (.sentinel 2 "database is down")⟩ scopeEvaluators freshUser
          ⟨"dashboards:read", ["dashboards:uid:b"]⟩).calls ∧
        Call.MutateScopes ∉ (AccessControl.Evaluate
          ⟨rewritingResolvers "dashboards:uid:b" "dashboards:uid:a",
            failingStore (.sentinel 2 "database is down")⟩ scopeEvaluators freshUser
          ⟨"dashboards:read", ["dashboards:uid:b"]⟩).calls ∧
        Call.EvaluateResolved ∉ (AccessControl.Evaluate
          ⟨rewritingResolvers "dashboards:uid:b" "dashboards:uid:a",
            failingStore (.sentinel 2 "database is down")⟩ scopeEvaluators freshUser
          ⟨"dashboards:read", ["dashboards:uid:b"]⟩).calls) :=
  ⟨by decide, rfl,
    evaluate_store_error ⟨rewritingResolvers "dashboards:uid:b" "dashboards:uid:a",
      failingStore (.sentinel 2 "database is down")⟩ scopeEvaluators freshUser
      ⟨"dashboards:read", ["dashboards:uid:b"]⟩ (.sentinel 2 "database is down") (by decide) rfl⟩

/-- C8: when the unresolved evaluation is false and scope mutation succeeds with a resolved
evaluator, `Evaluate` returns the resolved evaluator's verdict on the snapshot of the
principal's organization, with a nil error, and leaves the loaded principal in place. -/
theorem evaluate_resolved {ε : Type} (a : AccessControl) (E : Evaluator ε)
    (u u' : SignedInUser) (e resolved : ε)
    (hload : loadedUser a u = some u')
    (heval : E.Evaluate e (snapshot u') = false)
    (hmut : E.MutateScopes e (a.resolvers.GetScopeAttributeMutator u'.OrgID) = .ok resolved) :
    (a.Evaluate E u e).value = (E.Evaluate resolved (snapshot u'), none) ∧
      (a.Evaluate E u e).user = u' := by
  rcases loadedUser_cases a u u' hload with ⟨hv, rfl⟩ | ⟨hv, perms, hf, rfl⟩
  · simp [AccessControl.Evaluate, hv, heval, hmut]
  · simp only [] at hmut
    simp [AccessControl.Evaluate, hv, hf, heval, hmut]

theorem evaluate_resolved_witness :
    loadedUser ⟨rewritingResolvers "dashboards:uid:b" "dashboards:uid:a", fixedStore []⟩
        (grantedUser "dashboards:read" ["dashboards:uid:a"])
        = some (grantedUser "dashboards:read" ["dashboards:uid:a"]) ∧
      scopeEvaluators.Evaluate ⟨"dashboards:read", ["dashboards:uid:b"]⟩
        (snapshot (grantedUser "dashboards:read" ["dashboards:uid:a"])) = false ∧
      scopeEvaluators.MutateScopes ⟨"dashboards:read", ["dashboards:uid:b"]⟩
        ((rewritingResolvers "dashboards:uid:b" "dashboards:uid:a").GetScopeAttributeMutator
          (grantedUser "dashboards:read" ["dashboards:uid:a"]).OrgID)
        = .ok ⟨"dashboards:read", ["dashboards:uid:a"]⟩ ∧
      scopeEvaluators.Evaluate ⟨"dashboards:read", ["dashboards:uid:a"]⟩
        (snapshot (grantedUser "dashboards:read" ["dashboards:uid:a"])) = true ∧
      ((AccessControl.Evaluate
          ⟨rewritingResolvers "dashboards:uid:b" "dashboards:uid:a", fixedStore []⟩
          scopeEvaluators (grantedUser "dashboards:read" ["dashboards:uid:a"])
          ⟨"dashboards:read", ["dashboards:uid:b"]⟩).value
            = (scopeEvaluators.Evaluate ⟨"dashboards:read", ["dashboards:uid:a"]⟩
                (snapshot (grantedUser "dashboards:read" ["dashboards:uid:a"])), none) ∧
        (AccessControl.Evaluate
          ⟨rewritingResolvers "dashboards:uid:b" "dashboards:uid:a", fixedStore []⟩
          scopeEvaluators (grantedUser "dashboards:read" ["dashboards:uid:a"])
          ⟨"dashboards:read", ["dashboards:uid:b"]⟩).user
            = grantedUser "dashboards:read" ["dashboards:uid:a"]) :=
  ⟨by decide, by decide, rfl, by decide,
    evaluate_resolved
      ⟨rewritingResolvers "dashboards:uid:b" "dashboards:uid:a", fixedStore []⟩ scopeEvaluators
      (grantedUser "dashboards:read" ["dashboards:uid:a"])
      (grantedUser "dashboards:read" ["dashboards:uid:a"])
      ⟨"dashboards:read", ["dashboards:uid:b"]⟩ ⟨"dashboards:read", ["dashboards:uid:a"]⟩
      (by decide) (by decide) rfl⟩

/-- C9: when the snapshot is already present for the principal's organization, `Evaluate` makes
no call to the permission store, and the whole run (returned pair, final principal, calls) is
the same whatever store the engine holds, a store that always fails included. -/
theorem evaluate_present_no_fetch {ε : Type} (a : AccessControl) (E : Evaluator ε)
    (u : SignedInUser) (e : ε) (hpresent : verifyPermissions u = true) :
    (∀ opts, Call.GetUserPermissions opts ∉ (a.Evaluate E u e).calls) ∧
      (a.Evaluate E u e).user = u ∧
      (∀ store : Service, AccessControl.Evaluate ⟨a.resolvers, store⟩ E u e = a.Evaluate E u e) ∧
      (∀ err, AccessControl.Evaluate ⟨a.resolvers, failingStore err⟩ E u e = a.Evaluate E u e) := by
  have hrun : ∀ store : Service,
      AccessControl.Evaluate ⟨a.resolvers, store⟩ E u e = a.Evaluate E u e := by
    intro store
    simp [AccessControl.Evaluate, hpresent]
  refine ⟨?_, ?_, hrun, fun err => hrun _⟩
  · intro opts
    simp only [AccessControl.Evaluate, hpresent]
    cases E.Evaluate e (snapshot u) with
    | true => simp
    | false =>
      cases hm : E.MutateScopes e (a.resolvers.GetScopeAttributeMutator u.OrgID) with
      | error err => by_cases his : errorsIs err ErrResolverNotFound = true <;> simp [his]
      | ok resolved => simp
  · simp only [AccessControl.Evaluate, hpresent]
    cases E.Evaluate e (snapshot u) with
    | true => simp
    | false =>
      cases hm : E.MutateScopes e (a.resolvers.GetScopeAttributeMutator u.OrgID) with
      | error err => by_cases his : errorsIs err ErrResolverNotFound = true <;> simp [his]
      | ok resolved => simp

theorem evaluate_present_no_fetch_witness :
    verifyPermissions (grantedUser "dashboards:read" ["dashboards:uid:a"]) = true ∧
      ((∀ opts, Call.GetUserPermissions opts ∉ (AccessControl.Evaluate
          ⟨rewritingResolvers "dashboards:uid:b" "dashboards:uid:a",
            fixedStore [⟨"folders:read", "*"⟩]⟩ scopeEvaluators
          (grantedUser "dashboards:read" ["dashboards:uid:a"])
          ⟨"dashboards:read", ["dashboards:uid:b"]⟩).calls) ∧
        (AccessControl.Evaluate
          ⟨rewritingResolvers "dashboards:uid:b" "dashboards:uid:a",
            fixedStore [⟨"folders:read", "*"⟩]⟩ scopeEvaluators
          (grantedUser "dashboards:read" ["dashboards:uid:a"])
          ⟨"dashboards:read", ["dashboards:uid:b"]⟩).user
            = grantedUser "dashboards:read" ["dashboards:uid:a"] ∧
        (∀ store : Service,
          AccessControl.Evaluate ⟨rewritingResolvers "dashboards:uid:b" "dashboards:uid:a", store⟩
              scopeEvaluators (grantedUser "dashboards:read" ["dashboards:uid:a"])
              ⟨"dashboards:read", ["dashboards:uid:b"]⟩
            = AccessControl.Evaluate
              ⟨rewritingResolvers "dashboards:uid:b" "dashboards:uid:a",
                fixedStore [⟨"folders:read", "*"⟩]⟩ scopeEvaluators
              (grantedUser "dashboards:read" ["dashboards:uid:a"])
              ⟨"dashboards:read", ["dashboards:uid:b"]⟩) ∧
        (∀ err,
          AccessControl.Evaluate
              ⟨rewritingResolvers "dashboards:uid:b" "dashboards:uid:a", failingStore err⟩
              scopeEvaluators (grantedUser "dashboards:read" ["dashboards:uid:a"])
              ⟨"dashboards:read", ["dashboards:uid:b"]⟩
            = AccessControl.Evaluate
              ⟨rewritingResolvers "dashboards:uid:b" "dashboards:uid:a",
                fixedStore [⟨"folders:read", "*"⟩]⟩ scopeEvaluators
              (grantedUser "dashboards:read" ["dashboards:uid:a"])
              ⟨"dashboards:read", ["dashboards:uid:b"]⟩)) :=
  ⟨by decide,
    evaluate_present_no_fetch
      ⟨rewritingResolvers "dashboards:uid:b" "dashboards:uid:a",
        fixedStore [⟨"folders:read", "*"⟩]⟩ scopeEvaluators
      (grantedUser "dashboards:read" ["dashboards:uid:a"])
      ⟨"dashboards:read", ["dashboards:uid:b"]⟩ (by decide)⟩

/-- C10: when the unresolved evaluation is false and scope mutation fails with an error that is
not `ErrResolverNotFound` and wraps it nowhere along its chain (whatever its message),
`Evaluate` returns `(false, err)` with that error and no resolved evaluator is evaluated. -/
theorem evaluate_mutation_error {ε : Type} (a : AccessControl) (E : Evaluator ε)
    (u u' : SignedInUser) (e : ε) (err : GoError)
    (hload : loadedUser a u = some u')
    (heval : E.Evaluate e (snapshot u') = false)
    (hmut : E.MutateScopes e (a.resolvers.GetScopeAttributeMutator u'.OrgID) = .error err)
    (hnot : ∀ inner ∈ err.chain, inner.ident ≠ ErrResolverNotFound.ident) :
    (a.Evaluate E u e).value = (false, some err) ∧
      Call.EvaluateResolved ∉ (a.Evaluate E u e).calls := by
  have his : errorsIs err ErrResolverNotFound = false :=
    (errorsIs_eq_false_iff err ErrResolverNotFound).2 hnot
  rcases loadedUser_cases a u u' hload with ⟨hv, rfl⟩ | ⟨hv, perms, hf, rfl⟩
  · simp [AccessControl.Evaluate, hv, heval, hmut, his]
  · simp only [] at hmut
    simp [AccessControl.Evaluate, hv, hf, heval, hmut, his]

theorem evaluate_mutation_error_witness :
    loadedUser ⟨failingResolvers (.wrap 4 "resolving" (.sentinel 5 "no resolver found")),
        fixedStore [⟨"dashboards:read", "dashboards:uid:a"⟩]⟩ freshUser
        = some (grantedUser "dashboards:read" ["dashboards:uid:a"]) ∧
      scopeEvaluators.Evaluate ⟨"dashboards:read", ["dashboards:uid:b"]⟩
        (snapshot (grantedUser "dashboards:read" ["dashboards:uid:a"])) = false ∧
      scopeEvaluators.MutateScopes ⟨"dashboards:read", ["dashboards:uid:b"]⟩
        ((failingResolvers (.wrap 4 "resolving" (.sentinel 5 "no resolver found"))).GetScopeAttributeMutator
          (grantedUser "dashboards:read" ["dashboards:uid:a"]).OrgID)
        = .error (.wrap 4 "resolving" (.sentinel 5 "no resolver found")) ∧
      (∀ inner ∈ (GoError.wrap 4 "resolving" (.sentinel 5 "no resolver found")).chain,
        inner.ident ≠ ErrResolverNotFound.ident) ∧
      ((AccessControl.Evaluate
          ⟨failingResolvers (.wrap 4 "resolving" (.sentinel 5 "no resolver found")),
            fixedStore [⟨"dashboards:read", "dashboards:uid:a"⟩]⟩ scopeEvaluators freshUser
          ⟨"dashboards:read", ["dashboards:uid:b"]⟩).value
            = (false, some (.wrap 4 "resolving" (.sentinel 5 "no resolver found"))) ∧
        Call.EvaluateResolved ∉ (AccessControl.Evaluate
          ⟨failingResolvers (.wrap 4 "resolving" (.sentinel 5 "no resolver found")),
            fixedStore [⟨"dashboards:read", "dashboards:uid:a"⟩]⟩ scopeEvaluators freshUser
          ⟨"dashboards:read", ["dashboards:uid:b"]⟩).calls) :=
  ⟨by decide, by decide, rfl, by decide,
    evaluate_mutation_error
      ⟨failingResolvers (.wrap 4 "resolving" (.sentinel 5 "no resolver found")),
        fixedStore [⟨"dashboards:read", "dashboards:uid:a"⟩]⟩ scopeEvaluators freshUser
      (grantedUser "dashboards:read" ["dashboards:uid:a"])
      ⟨"dashboards:read", ["dashboards:uid:b"]⟩
      (.wrap 4 "resolving" (.sentinel 5 "no resolver found"))
      (by decide) (by decide) rfl (by decide)⟩

/-! ## Lemmas on the wildcard compiler -/

theorem foldl_append_wildcard (segments : List String) (wildcards : Wildcards) :
    segments.foldl (fun wildcards p => wildcards ++ [p ++ ":*"]) wildcards =
      wildcards ++ segments.map (fun segment => segment ++ ":*") := by
  induction segments generalizing wildcards with
  | nil => simp
  | cons seg rest ih => simp [List.foldl_cons, ih]

theorem foldl_prefixes_wildcards (prefixes : List String) (wildcards : Wildcards) :
    prefixes.foldl
        (fun wildcards pfx =>
          (stringsSplit pfx ':').foldl (fun wildcards p => wildcards ++ [p ++ ":*"]) wildcards)
        wildcards =
      wildcards ++ (allSegments prefixes).map (fun segment => segment ++ ":*") := by
  induction prefixes generalizing wildcards with
  | nil => simp [allSegments]
  | cons pfx rest ih =>
    rw [List.foldl_cons, ih, foldl_append_wildcard]
    simp [allSegments]

theorem generatePossibleWildcards_eq (prefixes : List String) :
    generatePossibleWildcards prefixes = wildcardsOfSegments prefixes := by
  simp [generatePossibleWildcards, wildcardsOfSegments, foldl_prefixes_wildcards]

theorem append_wildcard_injective : Function.Injective (fun segment : String => segment ++ ":*") := by
  intro s t h
  have hd : s.data ++ ":*".data = t.data ++ ":*".data := by
    simpa using congrArg String.data h
  exact String.ext (List.append_cancel_right hd)

theorem append_wildcard_ne_star (segment : String) : segment ++ ":*" ≠ "*" := by
  intro h
  have hl := congrArg String.length h
  simp at hl
  have h2 : (":*" : String).length = 2 := by decide
  have h1 : ("*" : String).length = 1 := by decide
  omega

theorem splitChars_no_sep (sep : Char) (cs : List Char) :
    ∀ seg ∈ splitChars sep cs, sep ∉ seg := by
  induction cs with
  | nil => simp [splitChars]
  | cons c rest ih =>
    by_cases hc : c = sep
    · intro seg hseg
      simp only [splitChars, hc, if_true, List.mem_cons] at hseg
      rcases hseg with rfl | hseg
      · simp
      · exact ih seg hseg
    · intro seg hseg
      simp only [splitChars, hc, if_false] at hseg
      cases hsplit : splitChars sep rest with
      | nil =>
        simp only [hsplit, List.mem_singleton] at hseg
        subst hseg
        simpa using fun h => hc h.symm
      | cons first more =>
        simp only [hsplit, List.mem_cons] at hseg
        rcases hseg with rfl | hseg
        · have hfirst : sep ∉ first := ih first (by simp [hsplit])
          simp only [List.mem_cons, not_or]
          exact ⟨fun h => hc h.symm, hfirst⟩
        · exact ih seg (by simp [hsplit, hseg])

theorem allSegments_no_colon (prefixes : List String) :
    ∀ segment ∈ allSegments prefixes, ':' ∉ segment.toList := by
  induction prefixes with
  | nil => simp [allSegments]
  | cons pfx rest ih =>
    intro segment hseg
    simp only [allSegments, List.mem_append] at hseg
    rcases hseg with hseg | hseg
    · simp only [stringsSplit, List.mem_map] at hseg
      obtain ⟨chars, hchars, rfl⟩ := hseg
      exact splitChars_no_sep ':' pfx.toList chars hchars
    · exact ih segment hseg

/-! ## Theorems on the wildcard compiler -/

/-- C11: for every list of prefixes, `generatePossibleWildcards` is the universal wildcard
followed, in input order, by `segment:*` for every segment of every prefix (empty segments
included); the empty list gives `[*]` and the length is one plus the number of segments. -/
theorem generatePossibleWildcards_spec (prefixes : List String) :
    generatePossibleWildcards prefixes = wildcardsOfSegments prefixes ∧
      generatePossibleWildcards [] = ["*"] ∧
      (generatePossibleWildcards prefixes).length = 1 + (allSegments prefixes).length ∧
      generatePossibleWildcards ["a::b", "", "dashboards:uid"]
        = ["*", "a:*", ":*", "b:*", ":*", "dashboards:*", "uid:*"] := by
  refine ⟨generatePossibleWildcards_eq prefixes, by decide, ?_, by decide⟩
  rw [generatePossibleWildcards_eq]
  simp [wildcardsOfSegments, Nat.add_comm]

/-- C12: for every list of prefixes, the empty list and empty prefixes included,
`Wildcards.Contains` finds `*` among the generated wildcards. -/
theorem wildcards_contain_star (prefixes : List String) :
    Wildcards.Contains (generatePossibleWildcards prefixes) "*" = true := by
  rw [generatePossibleWildcards_eq]
  simp [wildcardsOfSegments, Wildcards.Contains]

/-- C16 (as stated, refuted): the prefixes `dashboards, dashboards` yield `dashboards:*` twice and
the single prefix `a:a` yields `a:*` twice, so the generated list does repeat strings. -/
theorem wildcards_repeat_counterexample :
    generatePossibleWildcards ["dashboards", "dashboards"] = ["*", "dashboards:*", "dashboards:*"] ∧
      ¬ (generatePossibleWildcards ["dashboards", "dashboards"]).Nodup ∧
      generatePossibleWildcards ["a:a"] = ["*", "a:*", "a:*"] ∧
      ¬ (generatePossibleWildcards ["a:a"]).Nodup := by
  decide

/-- C16 (amended): the generated list is a sequence that repeats a string exactly when a segment
is repeated: it has no string more than once if and only if the segments of all the prefixes,
taken together, are pairwise distinct. -/
theorem wildcards_nodup_iff (prefixes : List String) :
    (generatePossibleWildcards prefixes).Nodup ↔ (allSegments prefixes).Nodup := by
  rw [generatePossibleWildcards_eq]
  simp only [wildcardsOfSegments, List.nodup_cons, List.mem_map, not_exists, not_and]
  rw [List.nodup_map_iff append_wildcard_injective]
  exact ⟨fun h => h.2, fun h => ⟨fun segment _ => append_wildcard_ne_star segment, h⟩⟩

/-- C17: every generated wildcard after the leading `*` is one colon-free segment followed by
`:*`, so no scope `t:*` whose `t` contains a colon is ever among the wildcards; for the prefix
`dashboards:uid` the list is `*, dashboards:*, uid:*`, it does not contain `dashboards:uid:*`,
and a principal whose only scope is `dashboards:uid:*` is denied `dashboards:uid:abc`. -/
theorem wildcards_single_segment (a : AccessControl) (prefixes : List String) :
    (∀ w ∈ (generatePossibleWildcards prefixes).tail,
        ∃ segment : String, w = segment ++ ":*" ∧ ':' ∉ segment.toList) ∧
      (∀ t : String, ':' ∈ t.toList →
        Wildcards.Contains (generatePossibleWildcards prefixes) (t ++ ":*") = false) ∧
      generatePossibleWildcards ["dashboards:uid"] = ["*", "dashboards:*", "uid:*"] ∧
      Wildcards.Contains (generatePossibleWildcards ["dashboards:uid"]) "dashboards:uid:*"
        = false ∧
      (a.GenerateChecker (grantedUser "dashboards:read" ["dashboards:uid:*"])
        ["dashboards:uid"] "dashboards:read").value ["dashboards:uid:abc"] = false := by
  refine ⟨?_, ?_, by decide, by decide, rfl⟩
  · intro w hw
    rw [generatePossibleWildcards_eq] at hw
    simp only [wildcardsOfSegments, List.tail_cons, List.mem_map] at hw
    obtain ⟨segment, hseg, rfl⟩ := hw
    exact ⟨segment, rfl, allSegments_no_colon prefixes segment hseg⟩
  · intro t ht
    cases hc : Wildcards.Contains (generatePossibleWildcards prefixes) (t ++ ":*") with
    | false => rfl
    | true =>
      rw [Wildcards.contains_iff, generatePossibleWildcards_eq] at hc
      simp only [wildcardsOfSegments, List.mem_cons, List.mem_map] at hc
      rcases hc with hstar | ⟨segment, hseg, heq⟩
      · exact absurd hstar (append_wildcard_ne_star t)
      · have : segment = t := append_wildcard_injective heq
        subst this
        exact absurd ht (allSegments_no_colon prefixes segment hseg)

/-! ## Further theorems on `GenerateChecker` -/

/-- The checker of a principal with a present snapshot holds exactly when the action's scope list
has a generated wildcard or shares a scope with the candidates. -/
theorem checker_present_iff (a : AccessControl) (u : SignedInUser) (prefixes : List String)
    (action : String) (candidates : List String) (h : verifyPermissions u = true) :
    (a.GenerateChecker u prefixes action).value candidates = true ↔
      (∃ s ∈ actionScopes u action, s ∈ generatePossibleWildcards prefixes) ∨
        ∃ c ∈ candidates, c ∈ actionScopes u action := by
  rw [GenerateChecker_present a u prefixes action h]
  cases hscan : scanScopes (generatePossibleWildcards prefixes) (actionScopes u action) [] with
  | none => exact ⟨fun _ => Or.inl ((scanScopes_eq_none_iff _ _ _).1 hscan), fun _ => rfl⟩
  | some table =>
    have hnw : ¬ ∃ s ∈ actionScopes u action, s ∈ generatePossibleWildcards prefixes := by
      intro hw
      rw [(scanScopes_eq_none_iff _ _ _).2 hw] at hscan
      cases hscan
    simp only [lookupAny_iff]
    constructor
    · rintro ⟨c, hc, hl⟩
      refine Or.inr ⟨c, hc, ?_⟩
      have := (scanScopes_lookup _ _ _ _ hscan c).1 hl
      simpa [GoMap.lookup] using this
    · rintro (hw | ⟨c, hc, hm⟩)
      · exact absurd hw hnw
      · exact ⟨c, hc, (scanScopes_lookup _ _ _ _ hscan c).2 (Or.inr hm)⟩

/-- C13: for two principals with present snapshots whose scope lists for the action hold the same
set of scopes (whatever the order and the repetitions), the two checkers agree on every
candidate list. -/
theorem checker_ignores_order_and_duplicates (a a' : AccessControl) (u u' : SignedInUser)
    (prefixes : List String) (action : String) (candidates : List String)
    (hu : verifyPermissions u = true) (hu' : verifyPermissions u' = true)
    (hsame : ∀ s, s ∈ actionScopes u action ↔ s ∈ actionScopes u' action) :
    (a.GenerateChecker u prefixes action).value candidates =
      (a'.GenerateChecker u' prefixes action).value candidates := by
  rw [Bool.eq_iff_iff, checker_present_iff a u prefixes action candidates hu,
    checker_present_iff a' u' prefixes action candidates hu']
  simp only [hsame]

theorem checker_ignores_order_and_duplicates_witness :
    verifyPermissions (grantedUser "dashboards:read"
        ["dashboards:uid:a", "dashboards:uid:b", "dashboards:uid:a"]) = true ∧
      verifyPermissions (grantedUser "dashboards:read" ["dashboards:uid:b", "dashboards:uid:a"])
        = true ∧
      (∀ s, s ∈ actionScopes (grantedUser "dashboards:read"
            ["dashboards:uid:a", "dashboards:uid:b", "dashboards:uid:a"]) "dashboards:read" ↔
          s ∈ actionScopes (grantedUser "dashboards:read"
            ["dashboards:uid:b", "dashboards:uid:a"]) "dashboards:read") ∧
      (AccessControl.GenerateChecker ⟨failingResolvers ErrResolverNotFound, fixedStore []⟩
          (grantedUser "dashboards:read"
            ["dashboards:uid:a", "dashboards:uid:b", "dashboards:uid:a"])
          ["dashboards"] "dashboards:read").value ["dashboards:uid:c", "dashboards:uid:b"] =
        (AccessControl.GenerateChecker ⟨failingResolvers ErrResolverNotFound, fixedStore []⟩
          (grantedUser "dashboards:read" ["dashboards:uid:b", "dashboards:uid:a"])
          ["dashboards"] "dashboards:read").value ["dashboards:uid:c", "dashboards:uid:b"] :=
  ⟨by decide, by decide,
    by
      intro s
      simp only [actionScopes, snapshot, orgPermissions, grantedUser, GoMap.lookup, if_true,
        Option.getD_some, List.mem_cons, List.mem_singleton, List.not_mem_nil, or_false]
      tauto,
    checker_ignores_order_and_duplicates _ _ _ _ _ _ _ (by decide) (by decide)
      (by
        intro s
        simp only [actionScopes, snapshot, orgPermissions, grantedUser, GoMap.lookup, if_true,
          Option.getD_some, List.mem_cons, List.mem_singleton, List.not_mem_nil, or_false]
        tauto)⟩

/-- C14: the checker is a function of the snapshot of the principal's organization, the prefix
list and the action alone: two compilations from principals carrying the same snapshot (both
absent, or both present with the same scope list for every action), through any two engines,
agree on every candidate list. -/
theorem checker_deterministic (a a' : AccessControl) (u u' : SignedInUser)
    (prefixes : List String) (action : String) (candidates : List String)
    (hpres : verifyPermissions u = verifyPermissions u')
    (hsame : ∀ act, GoMap.lookup (snapshot u) act = GoMap.lookup (snapshot u') act) :
    (a.GenerateChecker u prefixes action).value candidates =
      (a'.GenerateChecker u' prefixes action).value candidates := by
  cases hv : verifyPermissions u with
  | false =>
    have hv' : verifyPermissions u' = false := by rw [← hpres, hv]
    simp [AccessControl.GenerateChecker, hv, hv']
  | true =>
    have hv' : verifyPermissions u' = true := by rw [← hpres, hv]
    rw [GenerateChecker_present a u prefixes action hv,
      GenerateChecker_present a' u' prefixes action hv']
    simp only [actionScopes, hsame]

theorem checker_deterministic_witness :
    verifyPermissions (grantedUser "dashboards:read" ["dashboards:uid:a"]) =
        verifyPermissions ⟨2, some [(1, [("dashboards:read", ["*"])]),
          (2, [("dashboards:read", ["dashboards:uid:a"])])]⟩ ∧
      (∀ act, GoMap.lookup (snapshot (grantedUser "dashboards:read" ["dashboards:uid:a"])) act =
        GoMap.lookup (snapshot ⟨2, some [(1, [("dashboards:read", ["*"])]),
          (2, [("dashboards:read", ["dashboards:uid:a"])])]⟩) act) ∧
      (AccessControl.GenerateChecker ⟨failingResolvers ErrResolverNotFound, fixedStore []⟩
          (grantedUser "dashboards:read" ["dashboards:uid:a"])
          ["dashboards"] "dashboards:read").value ["dashboards:uid:a"] =
        (AccessControl.GenerateChecker
          ⟨rewritingResolvers "x" "y", failingStore (.sentinel 2 "database is down")⟩
          ⟨2, some [(1, [("dashboards:read", ["*"])]),
            (2, [("dashboards:read", ["dashboards:uid:a"])])]⟩
          ["dashboards"] "dashboards:read").value ["dashboards:uid:a"] :=
  ⟨by decide, fun _ => rfl,
    checker_deterministic _ _ _ _ _ _ _ (by decide) (fun _ => rfl)⟩

/-- C19: the checker is monotone in the granted scopes: for two present snapshots where every
scope of the first scope list for the action is also in the second, a candidate list accepted
by the checker compiled from the first is accepted by the checker compiled from the second. -/
theorem checker_monotone (a a' : AccessControl) (u u' : SignedInUser)
    (prefixes : List String) (action : String) (candidates : List String)
    (hu : verifyPermissions u = true) (hu' : verifyPermissions u' = true)
    (hsub : ∀ s ∈ actionScopes u action, s ∈ actionScopes u' action)
    (htrue : (a.GenerateChecker u prefixes action).value candidates = true) :
    (a'.GenerateChecker u' prefixes action).value candidates = true := by
  rw [checker_present_iff a u prefixes action candidates hu] at htrue
  rw [checker_present_iff a' u' prefixes action candidates hu']
  rcases htrue with ⟨s, hs, hw⟩ | ⟨c, hc, hm⟩
  · exact Or.inl ⟨s, hsub s hs, hw⟩
  · exact Or.inr ⟨c, hc, hsub c hm⟩

theorem checker_monotone_witness :
    verifyPermissions (grantedUser "dashboards:read" ["dashboards:uid:a"]) = true ∧
      verifyPermissions (grantedUser "dashboards:read" ["dashboards:*", "dashboards:uid:a"])
        = true ∧
      (∀ s ∈ actionScopes (grantedUser "dashboards:read" ["dashboards:uid:a"]) "dashboards:read",
        s ∈ actionScopes (grantedUser "dashboards:read" ["dashboards:*", "dashboards:uid:a"])
          "dashboards:read") ∧
      (AccessControl.GenerateChecker ⟨failingResolvers ErrResolverNotFound, fixedStore []⟩
          (grantedUser "dashboards:read" ["dashboards:uid:a"])
          ["dashboards"] "dashboards:read").value ["dashboards:uid:a"] = true ∧
      (AccessControl.GenerateChecker ⟨failingResolvers ErrResolverNotFound, fixedStore []⟩
          (grantedUser "dashboards:read" ["dashboards:*", "dashboards:uid:a"])
          ["dashboards"] "dashboards:read").value ["dashboards:uid:a"] = true :=
  ⟨by decide, by decide, by decide, by decide,
    checker_monotone ⟨failingResolvers ErrResolverNotFound, fixedStore []⟩ _
      (grantedUser "dashboards:read" ["dashboards:uid:a"]) _ _ _ _
      (by decide) (by decide) (by decide) (by decide)⟩

/-! ## The snapshot across `Evaluate` calls -/

theorem Evaluate_present {ε : Type} (a : AccessControl) (E : Evaluator ε) (u : SignedInUser)
    (e : ε) (hv : verifyPermissions u = true) :
    (a.Evaluate E u e).user = u ∧
      ∀ opts, Call.GetUserPermissions opts ∉ (a.Evaluate E u e).calls := by
  simp only [AccessControl.Evaluate, hv]
  cases E.Evaluate e (snapshot u) with
  | true => simp
  | false =>
    cases hm : E.MutateScopes e (a.resolvers.GetScopeAttributeMutator u.OrgID) with
    | error err => by_cases his : errorsIs err ErrResolverNotFound = true <;> simp [his]
    | ok resolved => simp

theorem Evaluate_fetch_error {ε : Type} (a : AccessControl) (E : Evaluator ε) (u : SignedInUser)
    (e : ε) (err : GoError) (hv : verifyPermissions u = false)
    (hf : a.service.GetUserPermissions u ⟨true⟩ = .error err) :
    (a.Evaluate E u e).user = u ∧
      (a.Evaluate E u e).calls = [Call.GetUserPermissions ⟨true⟩] := by
  simp [AccessControl.Evaluate, hv, hf]

theorem Evaluate_fetch_ok {ε : Type} (a : AccessControl) (E : Evaluator ε) (u : SignedInUser)
    (e : ε) (perms : List Permission) (hv : verifyPermissions u = false)
    (hf : a.service.GetUserPermissions u ⟨true⟩ = .ok perms) :
    (a.Evaluate E u e).user = ⟨u.OrgID, some [(u.OrgID, GroupScopesByAction perms)]⟩ ∧
      Call.GetUserPermissions ⟨true⟩ ∈ (a.Evaluate E u e).calls ∧
      Call.Evaluate ∈ (a.Evaluate E u e).calls := by
  simp only [AccessControl.Evaluate, hv, hf]
  cases E.Evaluate e (snapshot ⟨u.OrgID, some [(u.OrgID, GroupScopesByAction perms)]⟩) with
  | true => simp
  | false =>
    cases hm : E.MutateScopes e (a.resolvers.GetScopeAttributeMutator u.OrgID) with
    | error err => by_cases his : errorsIs err ErrResolverNotFound = true <;> simp [his]
    | ok resolved => simp

theorem verifyPermissions_installed (org : Int) (permissions : GoMap String (List String)) :
    verifyPermissions ⟨org, some [(org, permissions)]⟩ = true := by
  simp [verifyPermissions, GoMap.lookup]

/-- A run fetched successfully exactly when the snapshot was absent and the store answered. -/
theorem fetchedSuccessfully_iff {ε : Type} (a : AccessControl) (E : Evaluator ε)
    (u : SignedInUser) (e : ε) :
    fetchedSuccessfully (a.Evaluate E u e) = true ↔
      verifyPermissions u = false ∧
        ∃ perms, a.service.GetUserPermissions u ⟨true⟩ = .ok perms := by
  cases hv : verifyPermissions u with
  | true =>
    have h := (Evaluate_present a E u e hv).2 ⟨true⟩
    simp [fetchedSuccessfully, h]
  | false =>
    cases hf : a.service.GetUserPermissions u ⟨true⟩ with
    | error err =>
      have h := (Evaluate_fetch_error a E u e err hv hf).2
      simp [fetchedSuccessfully, h]
    | ok perms =>
      have h := Evaluate_fetch_ok a E u e perms hv hf
      simp [fetchedSuccessfully, h.2.1, h.2.2]

theorem evaluateAll_present {ε : Type} (E : Evaluator ε) (steps : List (AccessControl × ε))
    (u : SignedInUser) (hv : verifyPermissions u = true) :
    (evaluateAll E u steps).filter fetchedSuccessfully = [] := by
  induction steps generalizing u with
  | nil => simp [evaluateAll]
  | cons step rest ih =>
    obtain ⟨a, e⟩ := step
    have hno : fetchedSuccessfully (a.Evaluate E u e) = false := by
      cases h : fetchedSuccessfully (a.Evaluate E u e) with
      | false => rfl
      | true =>
        have := ((fetchedSuccessfully_iff a E u e).1 h).1
        rw [hv] at this
        cases this
    have huser : (a.Evaluate E u e).user = u := (Evaluate_present a E u e hv).1
    simp only [evaluateAll, List.filter_cons, hno, huser]
    simpa using ih u hv

theorem evaluateAll_fetch_le_one {ε : Type} (E : Evaluator ε) (steps : List (AccessControl × ε))
    (u : SignedInUser) :
    ((evaluateAll E u steps).filter fetchedSuccessfully).length ≤ 1 := by
  induction steps generalizing u with
  | nil => simp [evaluateAll]
  | cons step rest ih =>
    obtain ⟨a, e⟩ := step
    cases h : fetchedSuccessfully (a.Evaluate E u e) with
    | false =>
      simp only [evaluateAll, List.filter_cons, h]
      simpa using ih (a.Evaluate E u e).user
    | true =>
      obtain ⟨hv, perms, hf⟩ := (fetchedSuccessfully_iff a E u e).1 h
      have huser := (Evaluate_fetch_ok a E u e perms hv hf).1
      have hpresent : verifyPermissions (a.Evaluate E u e).user = true := by
        rw [huser]
        exact verifyPermissions_installed _ _
      simp [evaluateAll, List.filter_cons, h, evaluateAll_present E rest _ hpresent]

/-- C15: after an `Evaluate` call whose load did not fail, the principal's snapshot for its
organization is present and its organization is the same, so no later call fetches; the call
fetched successfully only if the snapshot was absent before; and in any sequence of `Evaluate`
calls on a principal at most one call fetches successfully. -/
theorem snapshot_loaded_at_most_once {ε : Type} (E : Evaluator ε) (a : AccessControl)
    (u : SignedInUser) (e : ε) (hok : ∃ u', loadedUser a u = some u') :
    verifyPermissions (a.Evaluate E u e).user = true ∧
      (a.Evaluate E u e).user.OrgID = u.OrgID ∧
      (∀ (a' : AccessControl) (e' : ε) (opts : Options),
        Call.GetUserPermissions opts ∉ (a'.Evaluate E (a.Evaluate E u e).user e').calls) ∧
      (fetchedSuccessfully (a.Evaluate E u e) = true ↔ verifyPermissions u = false) ∧
      (∀ (v : SignedInUser) (steps : List (AccessControl × ε)),
        ((evaluateAll E v steps).filter fetchedSuccessfully).length ≤ 1) := by
  obtain ⟨u', hload⟩ := hok
  have hpresent : verifyPermissions (a.Evaluate E u e).user = true ∧
      (a.Evaluate E u e).user.OrgID = u.OrgID ∧
      (fetchedSuccessfully (a.Evaluate E u e) = true ↔ verifyPermissions u = false) := by
    rcases loadedUser_cases a u u' hload with ⟨hv, _⟩ | ⟨hv, perms, hf, _⟩
    · have h := Evaluate_present a E u e hv
      refine ⟨by rw [h.1]; exact hv, by rw [h.1], ?_⟩
      rw [fetchedSuccessfully_iff]
      simp [hv]
    · have h := Evaluate_fetch_ok a E u e perms hv hf
      refine ⟨by rw [h.1]; exact verifyPermissions_installed _ _, by rw [h.1], ?_⟩
      rw [fetchedSuccessfully_iff]
      simp [hv, hf]
  exact ⟨hpresent.1, hpresent.2.1,
    fun a' e' opts => (Evaluate_present a' E _ e' hpresent.1).2 opts,
    hpresent.2.2, fun v steps => evaluateAll_fetch_le_one E steps v⟩

theorem snapshot_loaded_at_most_once_witness :
    (∃ u', loadedUser ⟨failingResolvers ErrResolverNotFound,
        fixedStore [⟨"dashboards:read", "dashboards:uid:a"⟩]⟩ freshUser = some u') ∧
      (verifyPermissions (AccessControl.Evaluate ⟨failingResolvers ErrResolverNotFound,
          fixedStore [⟨"dashboards:read", "dashboards:uid:a"⟩]⟩ scopeEvaluators freshUser
          ⟨"dashboards:read", ["dashboards:uid:b"]⟩).user = true ∧
        (AccessControl.Evaluate ⟨failingResolvers ErrResolverNotFound,
          fixedStore [⟨"dashboards:read", "dashboards:uid:a"⟩]⟩ scopeEvaluators freshUser
          ⟨"dashboards:read", ["dashboards:uid:b"]⟩).user.OrgID = freshUser.OrgID ∧
        (∀ (a' : AccessControl) (e' : ScopeEvaluator) (opts : Options),
          Call.GetUserPermissions opts ∉ (a'.Evaluate scopeEvaluators
            (AccessControl.Evaluate ⟨failingResolvers ErrResolverNotFound,
              fixedStore [⟨"dashboards:read", "dashboards:uid:a"⟩]⟩ scopeEvaluators freshUser
              ⟨"dashboards:read", ["dashboards:uid:b"]⟩).user e').calls) ∧
        (fetchedSuccessfully (AccessControl.Evaluate ⟨failingResolvers ErrResolverNotFound,
            fixedStore [⟨"dashboards:read", "dashboards:uid:a"⟩]⟩ scopeEvaluators freshUser
            ⟨"dashboards:read", ["dashboards:uid:b"]⟩) = true ↔
          verifyPermissions freshUser = false) ∧
        (∀ (v : SignedInUser) (steps : List (AccessControl × ScopeEvaluator)),
          ((evaluateAll scopeEvaluators v steps).filter fetchedSuccessfully).length ≤ 1)) ∧
      ((evaluateAll scopeEvaluators freshUser
          [(⟨failingResolvers ErrResolverNotFound, failingStore (.sentinel 2 "database is down")⟩,
              ⟨"dashboards:read", ["dashboards:uid:a"]⟩),
            (⟨failingResolvers ErrResolverNotFound,
                fixedStore [⟨"dashboards:read", "dashboards:uid:a"⟩]⟩,
              ⟨"dashboards:read", ["dashboards:uid:a"]⟩),
            (⟨failingResolvers ErrResolverNotFound, fixedStore [⟨"folders:read", "*"⟩]⟩,
              ⟨"dashboards:read", ["dashboards:uid:a"]⟩)]).map
        (fun r => (r.value, r.calls)) =
        [((false, some (.sentinel 2 "database is down")), [Call.GetUserPermissions ⟨true⟩]),
          ((true, none), [Call.GetUserPermissions ⟨true⟩, Call.Evaluate]),
          ((true, none), [Call.Evaluate])]) :=
  ⟨⟨_, rfl⟩,
    snapshot_loaded_at_most_once scopeEvaluators
      ⟨failingResolvers ErrResolverNotFound,
        fixedStore [⟨"dashboards:read", "dashboards:uid:a"⟩]⟩ freshUser
      ⟨"dashboards:read", ["dashboards:uid:b"]⟩ ⟨_, rfl⟩,
    by decide⟩

/-- C18: on a cache miss with a successful fetch, whatever the evaluator and the registry then
make `Evaluate` return, the principal ends with a permissions map whose only key is its
organization, bound to the fetched permissions grouped by action; every other organization has
no snapshot any more. -/
theorem evaluate_installs_single_snapshot {ε : Type} (a : AccessControl) (E : Evaluator ε)
    (u : SignedInUser) (e : ε) (perms : List Permission)
    (habsent : verifyPermissions u = false)
    (hfetch : a.service.GetUserPermissions u ⟨true⟩ = .ok perms) :
    (a.Evaluate E u e).user.Permissions = some [(u.OrgID, GroupScopesByAction perms)] ∧
      (a.Evaluate E u e).user.OrgID = u.OrgID ∧
      orgPermissions (a.Evaluate E u e).user = some (GroupScopesByAction perms) ∧
      (∀ installed, (a.Evaluate E u e).user.Permissions = some installed →
        installed.map Prod.fst = [u.OrgID] ∧
          ∀ org, org ≠ u.OrgID → GoMap.lookup installed org = none) := by
  have h := (Evaluate_fetch_ok a E u e perms habsent hfetch).1
  rw [h]
  refine ⟨rfl, rfl, by simp [orgPermissions, GoMap.lookup], ?_⟩
  intro installed hinst
  simp only [Option.some.injEq] at hinst
  subst hinst
  refine ⟨rfl, fun org horg => ?_⟩
  have hne : ¬ u.OrgID = org := fun h => horg h.symm
  simp [GoMap.lookup, hne]

theorem evaluate_installs_single_snapshot_witness :
    verifyPermissions ⟨1, some [(2, [("dashboards:read", ["*"])])]⟩ = false ∧
      (fixedStore [⟨"dashboards:read", "dashboards:uid:a"⟩, ⟨"folders:read", "folders:uid:x"⟩,
          ⟨"dashboards:read", "dashboards:uid:b"⟩]).GetUserPermissions
        ⟨1, some [(2, [("dashboards:read", ["*"])])]⟩ ⟨true⟩
        = .ok [⟨"dashboards:read", "dashboards:uid:a"⟩, ⟨"folders:read", "folders:uid:x"⟩,
          ⟨"dashboards:read", "dashboards:uid:b"⟩] ∧
      GroupScopesByAction [⟨"dashboards:read", "dashboards:uid:a"⟩,
          ⟨"folders:read", "folders:uid:x"⟩, ⟨"dashboards:read", "dashboards:uid:b"⟩]
        = [("dashboards:read", ["dashboards:uid:a", "dashboards:uid:b"]),
          ("folders:read", ["folders:uid:x"])] ∧
      ((AccessControl.Evaluate ⟨failingResolvers (.sentinel 1 "resolver crashed"),
          fixedStore [⟨"dashboards:read", "dashboards:uid:a"⟩, ⟨"folders:read", "folders:uid:x"⟩,
            ⟨"dashboards:read", "dashboards:uid:b"⟩]⟩ scopeEvaluators
          ⟨1, some [(2, [("dashboards:read", ["*"])])]⟩
          ⟨"dashboards:read", ["dashboards:uid:c"]⟩).user.Permissions
            = some [((⟨1, some [(2, [("dashboards:read", ["*"])])]⟩ : SignedInUser).OrgID,
                GroupScopesByAction [⟨"dashboards:read", "dashboards:uid:a"⟩,
                  ⟨"folders:read", "folders:uid:x"⟩, ⟨"dashboards:read", "dashboards:uid:b"⟩])] ∧
        (AccessControl.Evaluate ⟨failingResolvers (.sentinel 1 "resolver crashed"),
          fixedStore [⟨"dashboards:read", "dashboards:uid:a"⟩, ⟨"folders:read", "folders:uid:x"⟩,
            ⟨"dashboards:read", "dashboards:uid:b"⟩]⟩ scopeEvaluators
          ⟨1, some [(2, [("dashboards:read", ["*"])])]⟩
          ⟨"dashboards:read", ["dashboards:uid:c"]⟩).user.OrgID
            = (⟨1, some [(2, [("dashboards:read", ["*"])])]⟩ : SignedInUser).OrgID ∧
        orgPermissions (AccessControl.Evaluate ⟨failingResolvers (.sentinel 1 "resolver crashed"),
          fixedStore [⟨"dashboards:read", "dashboards:uid:a"⟩, ⟨"folders:read", "folders:uid:x"⟩,
            ⟨"dashboards:read", "dashboards:uid:b"⟩]⟩ scopeEvaluators
          ⟨1, some [(2, [("dashboards:read", ["*"])])]⟩
          ⟨"dashboards:read", ["dashboards:uid:c"]⟩).user
            = some (GroupScopesByAction [⟨"dashboards:read", "dashboards:uid:a"⟩,
                ⟨"folders:read", "folders:uid:x"⟩, ⟨"dashboards:read", "dashboards:uid:b"⟩]) ∧
        (∀ installed,
          (AccessControl.Evaluate ⟨failingResolvers (.sentinel 1 "resolver crashed"),
            fixedStore [⟨"dashboards:read", "dashboards:uid:a"⟩,
              ⟨"folders:read", "folders:uid:x"⟩, ⟨"dashboards:read", "dashboards:uid:b"⟩]⟩
            scopeEvaluators ⟨1, some [(2, [("dashboards:read", ["*"])])]⟩
            ⟨"dashboards:read", ["dashboards:uid:c"]⟩).user.Permissions = some installed →
          installed.map Prod.fst
              = [(⟨1, some [(2, [("dashboards:read", ["*"])])]⟩ : SignedInUser).OrgID] ∧
            ∀ org, org ≠ (⟨1, some [(2, [("dashboards:read", ["*"])])]⟩ : SignedInUser).OrgID →
              GoMap.lookup installed org = none)) :=
  ⟨by decide, rfl, by decide,
    evaluate_installs_single_snapshot
      ⟨failingResolvers (.sentinel 1 "resolver crashed"),
        fixedStore [⟨"dashboards:read", "dashboards:uid:a"⟩, ⟨"folders:read", "folders:uid:x"⟩,
          ⟨"dashboards:read", "dashboards:uid:b"⟩]⟩ scopeEvaluators
      ⟨1, some [(2, [("dashboards:read", ["*"])])]⟩ ⟨"dashboards:read", ["dashboards:uid:c"]⟩
      [⟨"dashboards:read", "dashboards:uid:a"⟩, ⟨"folders:read", "folders:uid:x"⟩,
        ⟨"dashboards:read", "dashboards:uid:b"⟩]
      (by decide) rfl⟩

end ossaccesscontrol
